import Mathlib

/-!
Shallow embedding of the GTFS timetable filter of this repository
(`src/index.tsx`, function `parseGTFS` and its helpers; `src/App.tsx`
contains the same function verbatim).

Modelling conventions, applied uniformly:
* A JavaScript string is a Lean `String`; the JS relational operators on
  strings (`<=`, `>=`) and `localeCompare` as used here compare the
  code-unit sequences, modelled by the lexicographic `lexLE` on the
  character list (identical on the ASCII data this program compares).
* `undefined` (an out-of-range or `-1` array index, an absent zip member)
  is `Option.none`; a JS `TypeError` thrown by calling a method on
  `undefined` is `GtfsError.typeError` in the `Except` monad.
* A JS `Set` is an insertion-ordered duplicate-free list (`setAdd`,
  `setDel`); a JS `Map` is an insertion-ordered association list
  (`pushRow`); a JS object used as a string-keyed record is an
  association list with in-place overwrite (`mapSet`).
* `Array.prototype.sort` is a stable sort (`jsSortBy`, an insertion
  sort); per the ECMAScript specification a comparator result of `NaN`
  is treated as `+0`, i.e. as a tie, which `seqLE` reflects.
* `parseInt` is `parseIntJS`: it never fails, returning `none` (= `NaN`)
  when no leading integer can be read.
* The thrown `Error` messages are modelled structurally by `GtfsError`
  constructors carrying the varying payload (date, missing file name).
-/

/-- JS `String.prototype.split(sep)` on the character list: every
occurrence of `sep` separates fields; the empty string yields `[[]]`. -/
def jsSplit (sep : Char) : List Char → List (List Char)
  | [] => [[]]
  | c :: rest =>
    let r := jsSplit sep rest
    if c = sep then [] :: r
    else
      match r with
      | [] => [[c]]
      | g :: gs => (c :: g) :: gs

/-- JS `s.split(sep)` for a one-character separator. -/
def jsSplitOn (sep : Char) (s : String) : List String :=
  (jsSplit sep s.data).map String.mk

/-- JS `String.prototype.trim()`: strip leading and trailing whitespace. -/
def jsTrim (s : String) : String :=
  String.mk (((s.data.dropWhile Char.isWhitespace).reverse.dropWhile Char.isWhitespace).reverse)

/-- JS `Array.prototype.indexOf`: index of the first occurrence, where
the JS result `-1` (not found) is `none`. -/
def jsIndexOf (x : String) : List String → Option Nat
  | [] => none
  | y :: ys => if y = x then some 0 else (jsIndexOf x ys).map (· + 1)

/-- JS `cols[i]` where `i` may be `-1` (`none`) or out of range:
the result may be `undefined` (`none`). -/
def getCol (cols : List String) : Option Nat → Option String
  | none => none
  | some i => cols[i]?

/-- Lexicographic comparison of character lists; models the JS string
relational operators and `localeCompare` on the fixed-alphabet
(digits, colon) strings this program compares. -/
def lexLE : List Char → List Char → Bool
  | [], _ => true
  | _ :: _, [] => false
  | a :: as, b :: bs => decide (a < b) || (decide (a = b) && lexLE as bs)

/-- JS `a <= b` on strings. -/
def jsLE (a b : String) : Bool := lexLE a.data b.data

/-- Digit accumulation for `parseIntJS`. -/
def digitsToNat : List Char → Nat → Nat
  | [], acc => acc
  | c :: cs, acc => digitsToNat cs (acc * 10 + (c.toNat - 48))

/-- JS `parseInt` in base 10 on a possibly-undefined argument: skip
leading whitespace, read an optional sign and then leading digits;
`NaN` (no digits, or the argument was `undefined`) is `none`.
`parseInt` never throws. -/
def parseIntJS : Option String → Option Int
  | none => none
  | some s =>
    let cs := s.data.dropWhile Char.isWhitespace
    match cs with
    | '-' :: rest =>
      let ds := rest.takeWhile Char.isDigit
      if ds.isEmpty then none else some (-(digitsToNat ds 0 : Int))
    | '+' :: rest =>
      let ds := rest.takeWhile Char.isDigit
      if ds.isEmpty then none else some ((digitsToNat ds 0 : Int))
    | _ =>
      let ds := cs.takeWhile Char.isDigit
      if ds.isEmpty then none else some ((digitsToNat ds 0 : Int))

/-- JS `Set.prototype.add`: insertion-ordered, no duplicates. -/
def setAdd [DecidableEq α] (s : List α) (x : α) : List α :=
  if x ∈ s then s else s ++ [x]

/-- JS `Set.prototype.delete`. -/
def setDel [DecidableEq α] (s : List α) (x : α) : List α :=
  s.filter (· ≠ x)

/-- JS `Map` update used for `tripStops`: append the row to the entry of
key `k`, creating the entry at the end on first use (insertion order). -/
def pushRow [DecidableEq κ] (m : List (κ × List ρ)) (k : κ) (r : ρ) : List (κ × List ρ) :=
  match m with
  | [] => [(k, [r])]
  | (k', rs) :: rest => if k' = k then (k', rs ++ [r]) :: rest else (k', rs) :: pushRow rest k r

/-- JS object property write `o[k] = v`: overwrite in place, else append. -/
def mapSet : List (String × String) → String → String → List (String × String)
  | [], k, v => [(k, v)]
  | (k', v') :: rest, k, v =>
    if k' = k then (k', v) :: rest else (k', v') :: mapSet rest k v

/-- Stable insertion used by `jsSortBy`: a later element `x` goes after
every existing `y` with `le y x` (ties keep the original order). -/
def insertSorted (le : α → α → Bool) (x : α) : List α → List α
  | [] => [x]
  | y :: ys => if le y x then y :: insertSorted le x ys else x :: y :: ys

/-- JS `Array.prototype.sort(comparator)`: modelled as a stable sort with
respect to `le a b` = "comparator(a, b) <= 0". -/
def jsSortBy (le : α → α → Bool) (l : List α) : List α :=
  l.foldl (fun acc x => insertSorted le x acc) []

-- --- TYPES (src/index.tsx, --- TYPES --- section) ---

/-- `StationDef` of the source. -/
structure StationDef where
  orden : Nat
  estacion : String
  codigo : String
deriving DecidableEq, Repr

/-- `StopTime` of the source. `arrival_time` is always set to `""` by the
parser and never read, so it is omitted. `departure_time` holds the raw
field, which is `undefined` when the column is missing; `stop_sequence`
holds the `parseInt` result, `none` being `NaN`. -/
structure StopTime where
  trip_id : Option String
  departure_time : Option String
  stop_id : String
  stop_sequence : Option Int
deriving DecidableEq, Repr

/-- `ParsedTrip` of the source. `id` is the `tripStops` map key, which is
the raw `trip_id` column value and hence possibly `undefined`. -/
structure ParsedTrip where
  id : Option String
  stops : List (String × String)
  firstStopOrder : Nat
  lastStopOrder : Nat
  departureFromOrigin : String
deriving DecidableEq, Repr

/-- The archive handed to `parseGTFS`: the four member names `readFile`
is called with, each present (`some text`) or absent (`none`). -/
structure Archive where
  calendar : Option String
  calendarDates : Option String
  trips : Option String
  stopTimes : Option String
deriving DecidableEq, Repr

/-- The failures `parseGTFS` can raise, structurally:
`noActiveService` = `"No se encontraron servicios activos para la fecha …"`;
`missingFile f` = `"No se encontró f"`;
`typeError` = a JS `TypeError` from calling a method on `undefined`. -/
inductive GtfsError where
  | noActiveService (formattedDate : String)
  | missingFile (filename : String)
  | typeError
deriving DecidableEq, Repr

/-- The successful return value of `parseGTFS`. -/
structure GtfsResult where
  toBrinkola : List ParsedTrip
  toIrun : List ParsedTrip
  dateUsed : String
deriving DecidableEq, Repr

-- --- CONSTANTS ---

/-- `GIPUZKOA_STATIONS`: the fixed corridor table, Irún (1) to Bríncola (27). -/
def GIPUZKOA_STATIONS : List StationDef :=
  [⟨1, "Irún", "11600"⟩, ⟨2, "Ventas de Irún", "11518"⟩, ⟨3, "Lezo-Rentería", "11516"⟩,
   ⟨4, "Pasaia", "11515"⟩, ⟨5, "Herrera", "11514"⟩, ⟨6, "Ategorrieta", "11513"⟩,
   ⟨7, "Gros", "11512"⟩, ⟨8, "San Sebastián", "11511"⟩, ⟨9, "Loiola", "11510"⟩,
   ⟨10, "Martutene", "11509"⟩, ⟨11, "Hernani", "11508"⟩, ⟨12, "Hernani-Centro", "11507"⟩,
   ⟨13, "Urnieta", "11506"⟩, ⟨14, "Andoain", "11505"⟩, ⟨15, "Andoain-Centro", "11504"⟩,
   ⟨16, "Villabona-Zizurkil", "11503"⟩, ⟨17, "Anoeta", "11502"⟩, ⟨18, "Tolosa-Centro", "11501"⟩,
   ⟨19, "Tolosa", "11500"⟩, ⟨20, "Alegia", "11409"⟩, ⟨21, "Itsasondo", "11406"⟩,
   ⟨22, "Ordizia", "11405"⟩, ⟨23, "Beasain", "11404"⟩, ⟨24, "Ormaiztegi", "11402"⟩,
   ⟨25, "Zumárraga", "11400"⟩, ⟨26, "Legazpi", "11306"⟩, ⟨27, "Bríncola", "11305"⟩]

/-- `validStopCodes = new Set(GIPUZKOA_STATIONS.map(s => s.codigo))`. -/
def validStopCodes : List String := GIPUZKOA_STATIONS.map (·.codigo)

/-- `codeToOrder = new Map(GIPUZKOA_STATIONS.map(s => [s.codigo, s.orden]))`;
`Map.prototype.get` with a `none` result for an absent key. -/
def codeToOrder (c : String) : Option Nat :=
  (GIPUZKOA_STATIONS.map (fun s => (s.codigo, s.orden))).lookup c

-- --- Header-plus-rows table access shared by the four feed files ---

/-- `lines[0].trim().split(',')`. -/
def headerCols (txt : String) : List String :=
  jsSplitOn ',' (jsTrim ((jsSplitOn '\n' txt).headD ""))

/-- The data rows `lines[1], lines[2], …`. -/
def dataLines (txt : String) : List String :=
  (jsSplitOn '\n' txt).tail

-- --- 2a. calendar.txt (base schedule) ---

/-- The dynamic column mapping `idx` for `calendar.txt`; the source field
`end` is named `endCol` (`end` is a Lean keyword). -/
structure CalIdx where
  service : Option Nat
  day : Option Nat
  start : Option Nat
  endCol : Option Nat
deriving DecidableEq, Repr

/-- Column mapping of `calendar.txt` by `headers.indexOf`. -/
def calIdxOf (txt dayName : String) : CalIdx :=
  ⟨jsIndexOf "service_id" (headerCols txt), jsIndexOf dayName (headerCols txt),
   jsIndexOf "start_date" (headerCols txt), jsIndexOf "end_date" (headerCols txt)⟩

/-- The row condition `isActiveDay && dateStr >= startDate && dateStr <= endDate`;
a comparison against an `undefined` date field is false in JS. -/
def calRowTest (dateStr : String) (idx : CalIdx) (cols : List String) : Bool :=
  (getCol cols idx.day == some "1") &&
    (match getCol cols idx.start, getCol cols idx.endCol with
     | some startDate, some endDate => jsLE startDate dateStr && jsLE dateStr endDate
     | _, _ => false)

/-- One iteration of the `calendar.txt` row loop. -/
def calRowStep (dateStr : String) (idx : CalIdx) (acc : List (Option String))
    (rawLine : String) : List (Option String) :=
  let line := jsTrim rawLine
  if line = "" then acc
  else
    let cols := jsSplitOn ',' line
    if calRowTest dateStr idx cols then setAdd acc (getCol cols idx.service) else acc

/-- Step 2a: the base-calendar pass over `calendar.txt`, building
`activeServices` from the empty set; skipped entirely when the file is
absent or a required column is missing. -/
def baseCalendar (calendarTxt : Option String) (dateStr dayName : String) :
    List (Option String) :=
  match calendarTxt with
  | none => []
  | some txt =>
    let idx := calIdxOf txt dayName
    if idx.service.isSome && idx.day.isSome && idx.start.isSome && idx.endCol.isSome then
      (dataLines txt).foldl (calRowStep dateStr idx) []
    else []

-- --- 2b. calendar_dates.txt (exceptions) ---

/-- The dynamic column mapping for `calendar_dates.txt`; the source field
`type` is named `etype`. -/
structure CdIdx where
  service : Option Nat
  date : Option Nat
  etype : Option Nat
deriving DecidableEq, Repr

/-- Column mapping of `calendar_dates.txt` by `headers.indexOf`. -/
def cdIdxOf (txt : String) : CdIdx :=
  ⟨jsIndexOf "service_id" (headerCols txt), jsIndexOf "date" (headerCols txt),
   jsIndexOf "exception_type" (headerCols txt)⟩

/-- One iteration of the `calendar_dates.txt` row loop: on the target
date, exception type `"1"` force-adds and `"2"` force-removes the
service; any other type leaves the set unchanged. -/
def excRowStep (dateStr : String) (idx : CdIdx) (acc : List (Option String))
    (rawLine : String) : List (Option String) :=
  let line := jsTrim rawLine
  if line = "" then acc
  else
    let cols := jsSplitOn ',' line
    if getCol cols idx.date == some dateStr then
      let t := getCol cols idx.etype
      let serviceId := getCol cols idx.service
      if t == some "1" then setAdd acc serviceId
      else if t == some "2" then setDel acc serviceId
      else acc
    else acc

/-- Step 2b: apply `calendar_dates.txt` exceptions to the set produced by
step 2a; skipped when the file is absent or a required column is missing. -/
def applyCalendarDates (cdTxt : Option String) (dateStr : String)
    (acc : List (Option String)) : List (Option String) :=
  match cdTxt with
  | none => acc
  | some txt =>
    let idx := cdIdxOf txt
    if idx.service.isSome && idx.date.isSome && idx.etype.isSome then
      (dataLines txt).foldl (excRowStep dateStr idx) acc
    else acc

/-- Step 2: the resolved `activeServices` set for the target date. -/
def resolveActiveServices (cal cd : Option String) (dateStr dayName : String) :
    List (Option String) :=
  applyCalendarDates cd dateStr (baseCalendar cal dateStr dayName)

-- --- 3. trips.txt ---

/-- The dynamic column mapping `tIdx` for `trips.txt`. -/
structure TIdx where
  trip : Option Nat
  service : Option Nat
deriving DecidableEq, Repr

/-- Column mapping of `trips.txt`. -/
def tIdxOf (txt : String) : TIdx :=
  ⟨jsIndexOf "trip_id" (headerCols txt), jsIndexOf "service_id" (headerCols txt)⟩

/-- One iteration of the `trips.txt` row loop (rows are not trimmed here;
only the exactly-empty line is skipped). -/
def tripRowStep (tIdx : TIdx) (activeServices : List (Option String))
    (acc : List (Option String)) (line : String) : List (Option String) :=
  if line = "" then acc
  else
    let cols := jsSplitOn ',' line
    if getCol cols tIdx.service ∈ activeServices then setAdd acc (getCol cols tIdx.trip)
    else acc

/-- Step 3: the `activeTrips` set of trip ids whose service is active.
(The source also fills `tripServiceMap`, which is never read again.) -/
def activeTripsOf (tripsTxt : String) (activeServices : List (Option String)) :
    List (Option String) :=
  (dataLines tripsTxt).foldl (tripRowStep (tIdxOf tripsTxt) activeServices) []

-- --- 4. stop_times.txt ---

/-- The dynamic column mapping `stIdx` for `stop_times.txt`. -/
structure StIdx where
  trip : Option Nat
  dep : Option Nat
  stop : Option Nat
  seq : Option Nat
deriving DecidableEq, Repr

/-- Column mapping of `stop_times.txt`. -/
def stIdxOf (txt : String) : StIdx :=
  ⟨jsIndexOf "trip_id" (headerCols txt), jsIndexOf "departure_time" (headerCols txt),
   jsIndexOf "stop_id" (headerCols txt), jsIndexOf "stop_sequence" (headerCols txt)⟩

/-- One iteration of the `stop_times.txt` row loop. `cleanId` is
`id => id.trim()`: applied to an `undefined` column it throws a
`TypeError`, modelled by the `error` branch. -/
def stStep (stIdx : StIdx) (activeTrips : List (Option String))
    (acc : List (Option String × List StopTime)) (line : String) :
    Except GtfsError (List (Option String × List StopTime)) :=
  if line = "" then .ok acc
  else
    let cols := jsSplitOn ',' line
    let tripId := getCol cols stIdx.trip
    if tripId ∈ activeTrips then
      match getCol cols stIdx.stop with
      | none => .error .typeError
      | some rawStop =>
        let stopId := jsTrim rawStop
        if stopId ∈ validStopCodes then
          .ok (pushRow acc tripId
            { trip_id := tripId, departure_time := getCol cols stIdx.dep,
              stop_id := stopId, stop_sequence := parseIntJS (getCol cols stIdx.seq) })
        else .ok acc
    else .ok acc

/-- The `stop_times.txt` row loop; a thrown `TypeError` aborts it. -/
def collectAux (stIdx : StIdx) (activeTrips : List (Option String)) :
    List (Option String × List StopTime) → List String →
    Except GtfsError (List (Option String × List StopTime))
  | acc, [] => .ok acc
  | acc, line :: rest =>
    match stStep stIdx activeTrips acc line with
    | .error e => .error e
    | .ok acc2 => collectAux stIdx activeTrips acc2 rest

/-- Step 4: `tripStops`, the per-trip accumulated in-corridor stop rows. -/
def collectStopRows (stTxt : String) (activeTrips : List (Option String)) :
    Except GtfsError (List (Option String × List StopTime)) :=
  collectAux (stIdxOf stTxt) activeTrips [] (dataLines stTxt)

-- --- 5. Build result arrays ---

/-- The sequence comparator `(a, b) => a.stop_sequence - b.stop_sequence`
as a "comparator <= 0" test; a `NaN` difference is treated as `+0`
(a tie) by the ECMAScript sort. -/
def seqLE (a b : StopTime) : Bool :=
  match a.stop_sequence, b.stop_sequence with
  | some x, some y => decide (x ≤ y)
  | _, _ => true

/-- `stops.sort((a, b) => a.stop_sequence - b.stop_sequence)`. -/
def sortStopsJS (rows : List StopTime) : List StopTime := jsSortBy seqLE rows

/-- `s.departure_time.substring(0, 5)` given a defined receiver. -/
def jsSubstr5 (s : String) : String := String.mk (s.data.take 5)

/-- The `stopsMap` construction: for each stop row, truncate the departure
time to HH:MM and write it under the stop code (last write wins). A call
of `substring` on an `undefined` departure time throws a `TypeError`. -/
def buildStopsMap : List (String × String) → List StopTime →
    Except GtfsError (List (String × String))
  | acc, [] => .ok acc
  | acc, r :: rest =>
    match r.departure_time with
    | none => .error .typeError
    | some dt => buildStopsMap (mapSet acc r.stop_id (jsSubstr5 dt)) rest

/-- The body of `tripStops.forEach`: sort by sequence, discard groups of
fewer than 2 events, discard defensively when a corridor-position lookup
misses, build the `ParsedTrip`, classify by direction (`true` means the
`firstOrder < lastOrder` branch, pushing to `toBrinkola`).
The trailing match on `firstStop.departure_time` is total in the source's
terms: had the field been `undefined`, the `stopsMap` pass over the same
rows would already have thrown the same `TypeError`, so the added `error`
branch is unreachable and preserves the source behaviour exactly. -/
def classifyTrip (tripId : Option String) (stops : List StopTime) :
    Except GtfsError (Option (Bool × ParsedTrip)) :=
  let sorted := sortStopsJS stops
  if sorted.length < 2 then .ok none
  else
    match sorted with
    | [] => .ok none
    | firstStop :: rest =>
      let lastStop := rest.getLastD firstStop
      match codeToOrder firstStop.stop_id, codeToOrder lastStop.stop_id with
      | some firstOrder, some lastOrder =>
        (match buildStopsMap [] (firstStop :: rest) with
         | .error e => .error e
         | .ok stopsMap =>
           match firstStop.departure_time with
           | none => .error .typeError
           | some dep =>
             .ok (some (decide (firstOrder < lastOrder),
               { id := tripId, stops := stopsMap, firstStopOrder := firstOrder,
                 lastStopOrder := lastOrder, departureFromOrigin := dep })))
      | _, _ => .ok none

/-- The `forEach` over `tripStops` pushing each classified trip onto
`toBrinkola` (first component) or `toIrun` (second); a thrown `TypeError`
aborts the whole request. -/
def buildAux : (List ParsedTrip × List ParsedTrip) →
    List (Option String × List StopTime) →
    Except GtfsError (List ParsedTrip × List ParsedTrip)
  | acc, [] => .ok acc
  | acc, g :: gs =>
    match classifyTrip g.1 g.2 with
    | .error e => .error e
    | .ok none => buildAux acc gs
    | .ok (some (true, pt)) => buildAux (acc.1 ++ [pt], acc.2) gs
    | .ok (some (false, pt)) => buildAux (acc.1, acc.2 ++ [pt]) gs

/-- Step 5 up to (not including) the final time sort. -/
def buildLists (groups : List (Option String × List StopTime)) :
    Except GtfsError (List ParsedTrip × List ParsedTrip) :=
  buildAux ([], []) groups

/-- `timeCompare`: `a.departureFromOrigin.localeCompare(b.departureFromOrigin) <= 0`. -/
def depLE (a b : ParsedTrip) : Bool :=
  jsLE a.departureFromOrigin b.departureFromOrigin

-- --- parseGTFS ---

/-- `parseGTFS` of the source. The date-dependent caller inputs are taken
already derived, exactly as `getDateInfo` hands them to the body:
`dateStr` (YYYYMMDD), `dayName` (the weekday column name) and
`formattedDate` (DD/MM/YYYY). The second component is the ordered list of
strings passed to `onProgress` before the function returned or threw. -/
def parseGTFS (arch : Archive) (dateStr dayName formattedDate : String) :
    Except GtfsError GtfsResult × List String :=
  let msg1 := "Filtrando para fecha: " ++ formattedDate ++ " (" ++ dayName ++ ")..."
  let msg2 := "Analizando calendario y excepciones..."
  let activeServices := resolveActiveServices arch.calendar arch.calendarDates dateStr dayName
  if activeServices.length = 0 then
    (.error (.noActiveService formattedDate), [msg1, msg2])
  else
    let msg3 := "Procesando viajes activos (" ++ toString activeServices.length ++ " servicios)..."
    match arch.trips with
    | none => (.error (.missingFile "trips.txt"), [msg1, msg2, msg3])
    | some tripsTxt =>
      let activeTrips := activeTripsOf tripsTxt activeServices
      let msg4 := "Leyendo horarios..."
      match arch.stopTimes with
      | none => (.error (.missingFile "stop_times.txt"), [msg1, msg2, msg3, msg4])
      | some stTxt =>
        match collectStopRows stTxt activeTrips with
        | .error e => (.error e, [msg1, msg2, msg3, msg4])
        | .ok tripStops =>
          let msg5 := "Organizando direcciones..."
          match buildLists tripStops with
          | .error e => (.error e, [msg1, msg2, msg3, msg4, msg5])
          | .ok (tb, ti) =>
            (.ok { toBrinkola := jsSortBy depLE tb, toIrun := jsSortBy depLE ti,
                   dateUsed := formattedDate },
             [msg1, msg2, msg3, msg4, msg5])

-- --- Row-condition predicates used to state the claims ---

/-- A `calendar.txt` data row qualifies service `x` for the target date:
its weekday column holds `"1"` and `start_date <= dateStr <= end_date`
(lexicographically); `x` is the raw value of its `service_id` column. -/
def calRowQualifies (dateStr : String) (idx : CalIdx) (rawLine : String)
    (x : Option String) : Prop :=
  calRowTest dateStr idx (jsSplitOn ',' (jsTrim rawLine)) = true ∧
  getCol (jsSplitOn ',' (jsTrim rawLine)) idx.service = x

/-- A non-blank `calendar_dates.txt` row that force-adds service `x` on
the target date (`exception_type` is `"1"`). -/
def excLineAdds (dateStr : String) (idx : CdIdx) (rawLine : String)
    (x : Option String) : Prop :=
  jsTrim rawLine ≠ "" ∧
  (getCol (jsSplitOn ',' (jsTrim rawLine)) idx.date == some dateStr) = true ∧
  getCol (jsSplitOn ',' (jsTrim rawLine)) idx.etype = some "1" ∧
  getCol (jsSplitOn ',' (jsTrim rawLine)) idx.service = x

/-- A non-blank `calendar_dates.txt` row that force-removes service `x`
on the target date (`exception_type` is `"2"`). -/
def excLineRemoves (dateStr : String) (idx : CdIdx) (rawLine : String)
    (x : Option String) : Prop :=
  jsTrim rawLine ≠ "" ∧
  (getCol (jsSplitOn ',' (jsTrim rawLine)) idx.date == some dateStr) = true ∧
  getCol (jsSplitOn ',' (jsTrim rawLine)) idx.etype = some "2" ∧
  getCol (jsSplitOn ',' (jsTrim rawLine)) idx.service = x

/-- A `calendar_dates.txt` data row that changes the membership of
service `x` for the target date: non-blank, dated `dateStr`, naming `x`,
with `exception_type` `"1"` or `"2"`. -/
def excRelevant (dateStr : String) (idx : CdIdx) (x : Option String)
    (rawLine : String) : Bool :=
  (jsTrim rawLine != "") &&
  (getCol (jsSplitOn ',' (jsTrim rawLine)) idx.date == some dateStr) &&
  (getCol (jsSplitOn ',' (jsTrim rawLine)) idx.service == x) &&
  ((getCol (jsSplitOn ',' (jsTrim rawLine)) idx.etype == some "1") ||
   (getCol (jsSplitOn ',' (jsTrim rawLine)) idx.etype == some "2"))

-- --- Concrete feed fixtures used by witnesses and counterexamples ---

/-- A calendar granting service `S1` on Mondays through 2024. -/
def calFixture : String := "service_id,monday,start_date,end_date\nS1,1,20240101,20241231"

/-- A one-trip `trips.txt`. -/
def tripsFixture : String := "trip_id,service_id\nT1,S1"

/-- A well-formed two-stop `stop_times.txt` (Irún then Bríncola). -/
def stFixture : String :=
  "trip_id,departure_time,stop_id,stop_sequence\nT1,08:00:00,11600,1\nT1,10:30:00,11305,2"

/-- A complete well-formed archive. -/
def archFixture : Archive := ⟨some calFixture, none, some tripsFixture, some stFixture⟩

/-- The trip `parseGTFS` produces from `archFixture`. -/
def tripFixture : ParsedTrip :=
  ⟨some "T1", [("11600", "08:00"), ("11305", "10:30")], 1, 27, "08:00:00"⟩

/-- The result `parseGTFS` produces from `archFixture`. -/
def resFixture : GtfsResult := ⟨[tripFixture], [], "03/06/2024"⟩

/-- `stop_times.txt` whose trip stops twice at the same station (Irún). -/
def stDupStation : String :=
  "trip_id,departure_time,stop_id,stop_sequence\nT1,08:00:00,11600,1\nT1,08:30:00,11600,2"

/-- Archive for the duplicate-station trip. -/
def archDupStation : Archive := ⟨some calFixture, none, some tripsFixture, some stDupStation⟩

/-- `stop_times.txt` whose second row has the unparseable sequence `abc`. -/
def stBadSeq : String :=
  "trip_id,departure_time,stop_id,stop_sequence\nT1,08:00:00,11600,1\nT1,08:30:00,11305,abc"

/-- Archive for the malformed-sequence feed. -/
def archBadSeq : Archive := ⟨some calFixture, none, some tripsFixture, some stBadSeq⟩

/-- The empty archive: every member absent. -/
def archEmpty : Archive := ⟨none, none, none, none⟩

/-- A valid calendar but no `trips.txt`. -/
def archNoTrips : Archive := ⟨some calFixture, none, none, none⟩

/-- `trips.txt` whose header lacks the required `service_id` column. -/
def tripsNoService : String := "trip_id\nT1,S1"

/-- Archive whose `trips.txt` lacks `service_id`. -/
def archNoServiceCol : Archive := ⟨some calFixture, none, some tripsNoService, some stFixture⟩

/-- `stop_times.txt` whose header lacks the required `stop_id` column. -/
def stNoStopCol : String := "trip_id,departure_time,stop_sequence\nT1,08:00:00,1"

/-- `stop_times.txt` whose header lacks the required `departure_time`
column. -/
def stNoDepCol : String := "trip_id,stop_id,stop_sequence\nT1,11600,1\nT1,11305,2"

/-- The stop-time group `collectStopRows` accumulates for `T1` from
`stNoDepCol`: the departure times are all `undefined`. -/
def stopRowsNoDep : List StopTime :=
  [⟨some "T1", none, "11600", some 1⟩,
   ⟨some "T1", none, "11305", some 2⟩]

/-- The stop-time group `collectStopRows` accumulates for `T1` from
`stFixture`. -/
def stopRowsFixture : List StopTime :=
  [⟨some "T1", some "08:00:00", "11600", some 1⟩,
   ⟨some "T1", some "10:30:00", "11305", some 2⟩]

-- --- Helper lemmas: JS set operations ---

theorem mem_setAdd [DecidableEq α] (s : List α) (x y : α) :
    x ∈ setAdd s y ↔ x ∈ s ∨ x = y := by
  unfold setAdd
  split
  · constructor
    · exact Or.inl
    · rintro (h | rfl)
      · exact h
      · assumption
  · simp [List.mem_append]

theorem self_mem_setAdd [DecidableEq α] (s : List α) (x : α) : x ∈ setAdd s x :=
  (mem_setAdd s x x).mpr (Or.inr rfl)

theorem setAdd_idem [DecidableEq α] (s : List α) (x : α) :
    setAdd (setAdd s x) x = setAdd s x := by
  unfold setAdd
  split
  · simp [*]
  · simp

theorem mem_setDel [DecidableEq α] (s : List α) (x y : α) :
    x ∈ setDel s y ↔ x ∈ s ∧ x ≠ y := by
  simp [setDel]

theorem not_mem_setDel [DecidableEq α] (s : List α) (x : α) : x ∉ setDel s x := by
  simp [mem_setDel]

theorem setDel_idem [DecidableEq α] (s : List α) (x : α) :
    setDel (setDel s x) x = setDel s x := by
  simp [setDel, List.filter_filter]

-- --- Helper lemmas: jsIndexOf ---

theorem jsIndexOf_isSome_of_mem {x : String} :
    ∀ {l : List String}, x ∈ l → (jsIndexOf x l).isSome
  | y :: ys, h => by
    unfold jsIndexOf
    split
    · rfl
    · rename_i hyx
      have hx : x ∈ ys := by
        rcases List.mem_cons.mp h with rfl | h
        · exact absurd rfl hyx
        · exact h
      have := jsIndexOf_isSome_of_mem hx
      simp [Option.isSome_map]
      simpa using this

theorem jsIndexOf_eq_none_of_not_mem {x : String} :
    ∀ {l : List String}, x ∉ l → jsIndexOf x l = none
  | [], _ => rfl
  | y :: ys, h => by
    unfold jsIndexOf
    have hyx : y ≠ x := fun e => h (e ▸ List.mem_cons_self y ys)
    rw [if_neg hyx, jsIndexOf_eq_none_of_not_mem (fun hx => h (List.mem_cons_of_mem y hx))]
    rfl

-- --- Helper lemmas: lexicographic comparison ---

theorem lexLE_total : ∀ as bs : List Char, lexLE as bs = true ∨ lexLE bs as = true
  | [], _ => Or.inl rfl
  | _ :: _, [] => Or.inr rfl
  | a :: as, b :: bs => by
    rcases lt_trichotomy a b with h | h | h
    · left; simp [lexLE, h]
    · subst h
      rcases lexLE_total as bs with h | h
      · left; simp [lexLE, h]
      · right; simp [lexLE, h]
    · right; simp [lexLE, h]

theorem lexLE_trans : ∀ as bs cs : List Char,
    lexLE as bs = true → lexLE bs cs = true → lexLE as cs = true
  | [], _, _, _, _ => rfl
  | _ :: _, [], _, h1, _ => by simp [lexLE] at h1
  | _ :: _, _ :: _, [], _, h2 => by simp [lexLE] at h2
  | a :: as, b :: bs, c :: cs, h1, h2 => by
    simp only [lexLE, Bool.or_eq_true, Bool.and_eq_true, decide_eq_true_eq] at h1 h2 ⊢
    rcases h1 with h1 | ⟨rfl, h1⟩
    · rcases h2 with h2 | ⟨rfl, _⟩
      · exact Or.inl (lt_trans h1 h2)
      · exact Or.inl h1
    · rcases h2 with h2 | ⟨rfl, h2⟩
      · exact Or.inl h2
      · exact Or.inr ⟨rfl, lexLE_trans as bs cs h1 h2⟩

theorem jsLE_total (a b : String) : jsLE a b = true ∨ jsLE b a = true :=
  lexLE_total a.data b.data

theorem jsLE_trans {a b c : String} (h1 : jsLE a b = true) (h2 : jsLE b c = true) :
    jsLE a c = true :=
  lexLE_trans a.data b.data c.data h1 h2

-- --- Helper lemmas: the stable sort ---

theorem insertSorted_perm (le : α → α → Bool) (x : α) :
    ∀ l : List α, List.Perm (insertSorted le x l) (x :: l)
  | [] => List.Perm.refl _
  | y :: ys => by
    unfold insertSorted
    split
    · exact ((insertSorted_perm le x ys).cons y).trans (List.Perm.swap x y ys)
    · exact List.Perm.refl _

theorem foldl_insertSorted_perm (le : α → α → Bool) :
    ∀ (l acc : List α), List.Perm (l.foldl (fun a x => insertSorted le x a) acc) (acc ++ l)
  | [], acc => by simp
  | x :: xs, acc => by
    have h1 := foldl_insertSorted_perm le xs (insertSorted le x acc)
    have h2 : List.Perm (insertSorted le x acc ++ xs) (acc ++ x :: xs) :=
      (((insertSorted_perm le x acc).append_right xs).trans List.perm_middle.symm)
    simpa using h1.trans h2

theorem jsSortBy_perm (le : α → α → Bool) (l : List α) : List.Perm (jsSortBy le l) l := by
  simpa using foldl_insertSorted_perm le l []

theorem length_jsSortBy (le : α → α → Bool) (l : List α) :
    (jsSortBy le l).length = l.length :=
  (jsSortBy_perm le l).length_eq

theorem mem_jsSortBy {le : α → α → Bool} {l : List α} {x : α} :
    x ∈ jsSortBy le l ↔ x ∈ l :=
  (jsSortBy_perm le l).mem_iff

theorem insertSorted_pairwise {le : α → α → Bool}
    (htrans : ∀ a b c, le a b = true → le b c = true → le a c = true)
    (htotal : ∀ a b, le a b = true ∨ le b a = true) (x : α) :
    ∀ {l : List α}, l.Pairwise (fun a b => le a b = true) →
      (insertSorted le x l).Pairwise (fun a b => le a b = true)
  | [], _ => by simp [insertSorted]
  | y :: ys, h => by
    rcases List.pairwise_cons.mp h with ⟨hy, hys⟩
    unfold insertSorted
    split
    · rename_i hle
      refine List.pairwise_cons.mpr ⟨?_, insertSorted_pairwise htrans htotal x hys⟩
      intro z hz
      rcases List.mem_cons.mp ((insertSorted_perm le x ys).mem_iff.mp hz) with rfl | hzy
      · exact hle
      · exact hy z hzy
    · rename_i hle
      have hxy : le x y = true := (htotal x y).resolve_right (by simpa using hle)
      refine List.pairwise_cons.mpr ⟨?_, h⟩
      intro z hz
      rcases List.mem_cons.mp hz with rfl | hzy
      · exact hxy
      · exact htrans x y z hxy (hy z hzy)

theorem jsSortBy_pairwise {le : α → α → Bool}
    (htrans : ∀ a b c, le a b = true → le b c = true → le a c = true)
    (htotal : ∀ a b, le a b = true ∨ le b a = true) (l : List α) :
    (jsSortBy le l).Pairwise (fun a b => le a b = true) := by
  suffices h : ∀ (l acc : List α), acc.Pairwise (fun a b => le a b = true) →
      (l.foldl (fun a x => insertSorted le x a) acc).Pairwise (fun a b => le a b = true) by
    exact h l [] (by simp)
  intro l
  induction l with
  | nil => intro acc h; simpa using h
  | cons x xs ih =>
    intro acc h
    exact ih _ (insertSorted_pairwise htrans htotal x h)

-- --- Helper lemmas: calendar.txt pass ---

theorem getCol_blank (i : Option Nat) : getCol [""] i = none ∨ getCol [""] i = some "" := by
  cases i with
  | none => exact Or.inl rfl
  | some n =>
    cases n with
    | zero => exact Or.inr rfl
    | succ m => exact Or.inl (by simp [getCol])

theorem calRowTest_blank (dateStr : String) (idx : CalIdx) :
    calRowTest dateStr idx (jsSplitOn ',' "") = false := by
  have hsp : jsSplitOn ',' "" = [""] := rfl
  rw [hsp]
  unfold calRowTest
  rcases getCol_blank idx.day with h | h <;> rw [h] <;> rfl

theorem mem_calRowStep (dateStr : String) (idx : CalIdx) (acc : List (Option String))
    (rawLine : String) (x : Option String) :
    x ∈ calRowStep dateStr idx acc rawLine ↔
      x ∈ acc ∨ calRowQualifies dateStr idx rawLine x := by
  simp only [calRowStep, calRowQualifies]
  split_ifs with h1 h2
  · constructor
    · exact Or.inl
    · rintro (h | ⟨ht, _⟩)
      · exact h
      · rw [h1, calRowTest_blank] at ht
        exact absurd ht (by simp)
  · rw [mem_setAdd]
    constructor
    · rintro (h | h)
      · exact Or.inl h
      · exact Or.inr ⟨h2, h.symm⟩
    · rintro (h | ⟨_, h⟩)
      · exact Or.inl h
      · exact Or.inr h.symm
  · constructor
    · exact Or.inl
    · rintro (h | ⟨ht, _⟩)
      · exact h
      · exact absurd ht h2

theorem mem_foldl_calRowStep (dateStr : String) (idx : CalIdx) (x : Option String) :
    ∀ (ls : List String) (acc : List (Option String)),
      x ∈ ls.foldl (calRowStep dateStr idx) acc ↔
        x ∈ acc ∨ ∃ l ∈ ls, calRowQualifies dateStr idx l x
  | [], acc => by simp
  | l :: ls, acc => by
    rw [List.foldl_cons, mem_foldl_calRowStep dateStr idx x ls, mem_calRowStep]
    constructor
    · rintro ((h | h) | ⟨l', hl', hq⟩)
      · exact Or.inl h
      · exact Or.inr ⟨l, List.mem_cons_self l ls, h⟩
      · exact Or.inr ⟨l', List.mem_cons_of_mem l hl', hq⟩
    · rintro (h | ⟨l', hl', hq⟩)
      · exact Or.inl (Or.inl h)
      · rcases List.mem_cons.mp hl' with rfl | hl'
        · exact Or.inl (Or.inr hq)
        · exact Or.inr ⟨l', hl', hq⟩


-- --- Helper lemmas: calendar_dates.txt pass ---

theorem excRelevant_iff (dateStr : String) (idx : CdIdx) (x : Option String)
    (rawLine : String) :
    excRelevant dateStr idx x rawLine = true ↔
      jsTrim rawLine ≠ "" ∧
      getCol (jsSplitOn ',' (jsTrim rawLine)) idx.date = some dateStr ∧
      getCol (jsSplitOn ',' (jsTrim rawLine)) idx.service = x ∧
      (getCol (jsSplitOn ',' (jsTrim rawLine)) idx.etype = some "1" ∨
       getCol (jsSplitOn ',' (jsTrim rawLine)) idx.etype = some "2") := by
  simp [excRelevant, Bool.and_eq_true, Bool.or_eq_true, and_assoc]

/-- Processing one exception row never changes the membership of a
service identifier the row is not a `"1"`/`"2"` exception for. -/
theorem mem_excRowStep_not_relevant (dateStr : String) (idx : CdIdx)
    (acc : List (Option String)) (rawLine : String) (x : Option String)
    (h : excRelevant dateStr idx x rawLine = false) :
    (x ∈ excRowStep dateStr idx acc rawLine ↔ x ∈ acc) := by
  simp only [excRowStep]
  split_ifs with h1 h2 h3 h4
  · rfl
  · -- a force-add of some other service identifier
    have hsid : getCol (jsSplitOn ',' (jsTrim rawLine)) idx.service ≠ x := by
      intro he
      have : excRelevant dateStr idx x rawLine = true :=
        (excRelevant_iff dateStr idx x rawLine).mpr
          ⟨h1, by simpa using h2, he, Or.inl (by simpa using h3)⟩
      rw [h] at this
      exact Bool.false_ne_true this
    rw [mem_setAdd]
    constructor
    · rintro (h | rfl)
      · exact h
      · exact absurd rfl hsid
    · exact Or.inl
  · -- a force-remove of some other service identifier
    have hsid : getCol (jsSplitOn ',' (jsTrim rawLine)) idx.service ≠ x := by
      intro he
      have : excRelevant dateStr idx x rawLine = true :=
        (excRelevant_iff dateStr idx x rawLine).mpr
          ⟨h1, by simpa using h2, he, Or.inr (by simpa using h4)⟩
      rw [h] at this
      exact Bool.false_ne_true this
    rw [mem_setDel]
    constructor
    · exact fun h => h.1
    · exact fun h => ⟨h, fun he => hsid he.symm⟩
  · rfl
  · rfl

/-- Processing an exception row that is about `x` decides the membership
of `x` outright: in iff the row's type is `"1"`. -/
theorem mem_excRowStep_relevant (dateStr : String) (idx : CdIdx)
    (acc : List (Option String)) (rawLine : String) (x : Option String)
    (h : excRelevant dateStr idx x rawLine = true) :
    (x ∈ excRowStep dateStr idx acc rawLine ↔
      getCol (jsSplitOn ',' (jsTrim rawLine)) idx.etype = some "1") := by
  rcases (excRelevant_iff dateStr idx x rawLine).mp h with ⟨hb, hd, hs, ht⟩
  simp only [excRowStep]
  rw [if_neg hb]
  rw [if_pos (by simpa using hd)]
  rcases ht with ht | ht
  · rw [if_pos (by simpa using ht), hs, ht]
    simp [self_mem_setAdd]
  · rw [if_neg (by simp [ht]), if_pos (by simpa using ht), hs, ht]
    simp [not_mem_setDel]

/-- Membership of `x` after the whole exception row loop: the last row
relevant to `x` decides it; with no relevant row it is unchanged. -/
theorem mem_foldl_excRowStep (dateStr : String) (idx : CdIdx) (x : Option String)
    (ls : List String) :
    ∀ A : List (Option String),
      (x ∈ ls.foldl (excRowStep dateStr idx) A ↔
        (match (ls.filter (excRelevant dateStr idx x)).getLast? with
         | some l => getCol (jsSplitOn ',' (jsTrim l)) idx.etype = some "1"
         | none => x ∈ A)) := by
  induction ls using List.reverseRecOn with
  | nil => intro A; simp
  | append_singleton ls l ih =>
    intro A
    rw [List.foldl_append, List.foldl_cons, List.foldl_nil, List.filter_append]
    cases hrel : excRelevant dateStr idx x l with
    | false =>
      rw [mem_excRowStep_not_relevant dateStr idx _ l x hrel, ih A]
      simp [List.filter_cons, hrel]
    | true =>
      rw [mem_excRowStep_relevant dateStr idx _ l x hrel]
      simp [List.filter_cons, hrel, List.getLast?_concat]

-- --- Helper lemmas: trips.txt pass ---

theorem tripRowStep_service_none (tIdx : TIdx) (active : List (Option String))
    (hsvc : tIdx.service = none) (hn : none ∉ active) (acc : List (Option String))
    (l : String) : tripRowStep tIdx active acc l = acc := by
  simp only [tripRowStep]
  split_ifs with h1 h2
  · rfl
  · rw [hsvc] at h2
    exact absurd h2 hn
  · rfl

theorem activeTripsOf_no_service_col (tripsTxt : String) (active : List (Option String))
    (h : "service_id" ∉ headerCols tripsTxt) (hn : none ∉ active) :
    activeTripsOf tripsTxt active = [] := by
  unfold activeTripsOf
  have hsvc : (tIdxOf tripsTxt).service = none := jsIndexOf_eq_none_of_not_mem h
  have : ∀ (ls : List String) (acc : List (Option String)),
      ls.foldl (tripRowStep (tIdxOf tripsTxt) active) acc = acc := by
    intro ls
    induction ls with
    | nil => intro acc; rfl
    | cons l ls ih =>
      intro acc
      rw [List.foldl_cons, tripRowStep_service_none _ _ hsvc hn]
      exact ih acc
  exact this _ []

-- --- Helper lemmas: stop_times.txt pass ---

theorem stStep_ok_or_typeError (stIdx : StIdx) (active : List (Option String))
    (acc : List (Option String × List StopTime)) (line : String) :
    (∃ a, stStep stIdx active acc line = .ok a) ∨
      stStep stIdx active acc line = .error .typeError := by
  simp only [stStep]
  split_ifs with h1 h2
  · exact Or.inl ⟨acc, rfl⟩
  · rcases hc : getCol (jsSplitOn ',' line) stIdx.stop with _ | rawStop
    · exact Or.inr rfl
    · dsimp only
      split_ifs with h3
      · exact Or.inl ⟨_, rfl⟩
      · exact Or.inl ⟨acc, rfl⟩
  · exact Or.inl ⟨acc, rfl⟩

theorem collectAux_ok_or_typeError (stIdx : StIdx) (active : List (Option String)) :
    ∀ (lines : List String) (acc : List (Option String × List StopTime)),
      (∃ m, collectAux stIdx active acc lines = .ok m) ∨
        collectAux stIdx active acc lines = .error .typeError
  | [], acc => Or.inl ⟨acc, rfl⟩
  | line :: rest, acc => by
    rw [collectAux]
    rcases stStep_ok_or_typeError stIdx active acc line with ⟨a, ha⟩ | ha
    · rw [ha]
      exact collectAux_ok_or_typeError stIdx active rest a
    · rw [ha]
      exact Or.inr rfl

theorem collectAux_stop_none (stIdx : StIdx) (active : List (Option String))
    (hstop : stIdx.stop = none) :
    ∀ (lines : List String) (acc : List (Option String × List StopTime)),
      (∃ l ∈ lines, l ≠ "" ∧ getCol (jsSplitOn ',' l) stIdx.trip ∈ active) →
      collectAux stIdx active acc lines = .error .typeError
  | [], _, hex => by simp at hex
  | line :: rest, acc, hex => by
    rw [collectAux]
    by_cases htrig : line ≠ "" ∧ getCol (jsSplitOn ',' line) stIdx.trip ∈ active
    · have hstep : stStep stIdx active acc line = .error .typeError := by
        simp only [stStep]
        rw [if_neg (by simpa using htrig.1), if_pos htrig.2, hstop]
        rfl
      rw [hstep]
    · have hex' : ∃ l ∈ rest, l ≠ "" ∧ getCol (jsSplitOn ',' l) stIdx.trip ∈ active := by
        rcases hex with ⟨l, hl, hcond⟩
        rcases List.mem_cons.mp hl with rfl | hl
        · exact absurd hcond htrig
        · exact ⟨l, hl, hcond⟩
      rcases stStep_ok_or_typeError stIdx active acc line with ⟨a, ha⟩ | ha
      · rw [ha]
        exact collectAux_stop_none stIdx active hstop rest a hex'
      · rw [ha]

theorem pushRow_forall {κ ρ : Type} [DecidableEq κ] (P : ρ → Prop) :
    ∀ (m : List (κ × List ρ)) (k : κ) (r : ρ),
      (∀ p ∈ m, ∀ x ∈ p.2, P x) → P r → ∀ p ∈ pushRow m k r, ∀ x ∈ p.2, P x
  | [], k, r, _, hr, p, hp, x, hx => by
    simp only [pushRow, List.mem_singleton] at hp
    subst hp
    simp only [List.mem_singleton] at hx
    subst hx
    exact hr
  | (k', rs) :: rest, k, r, hm, hr, p, hp, x, hx => by
    simp only [pushRow] at hp
    split_ifs at hp with hk
    · rcases List.mem_cons.mp hp with rfl | hp
      · rcases List.mem_append.mp hx with hx | hx
        · exact hm (k', rs) (List.mem_cons_self _ _) x hx
        · rw [List.mem_singleton.mp hx]
          exact hr
      · exact hm p (List.mem_cons_of_mem _ hp) x hx
    · rcases List.mem_cons.mp hp with rfl | hp
      · exact hm (k', rs) (List.mem_cons_self _ _) x hx
      · exact pushRow_forall P rest k r
          (fun q hq => hm q (List.mem_cons_of_mem _ hq)) hr p hp x hx

theorem stStep_valid (stIdx : StIdx) (active : List (Option String))
    (acc acc2 : List (Option String × List StopTime)) (line : String)
    (h : stStep stIdx active acc line = .ok acc2)
    (hacc : ∀ p ∈ acc, ∀ r ∈ p.2, r.stop_id ∈ validStopCodes) :
    ∀ p ∈ acc2, ∀ r ∈ p.2, r.stop_id ∈ validStopCodes := by
  simp only [stStep] at h
  split_ifs at h with h1 h2
  · cases h
    exact hacc
  · rcases hc : getCol (jsSplitOn ',' line) stIdx.stop with _ | rawStop
    · rw [hc] at h
      cases h
    · rw [hc] at h
      dsimp only at h
      split_ifs at h with h3
      · cases h
        exact pushRow_forall _ acc _ _ hacc h3
      · cases h
        exact hacc
  · cases h
    exact hacc

theorem collectAux_valid (stIdx : StIdx) (active : List (Option String)) :
    ∀ (lines : List String) (acc m : List (Option String × List StopTime)),
      collectAux stIdx active acc lines = .ok m →
      (∀ p ∈ acc, ∀ r ∈ p.2, r.stop_id ∈ validStopCodes) →
      ∀ p ∈ m, ∀ r ∈ p.2, r.stop_id ∈ validStopCodes
  | [], acc, m, h, hacc => by
    cases h
    exact hacc
  | line :: rest, acc, m, h, hacc => by
    rw [collectAux] at h
    rcases hs : stStep stIdx active acc line with e | acc2
    · rw [hs] at h
      cases h
    · rw [hs] at h
      exact collectAux_valid stIdx active rest acc2 m h
        (stStep_valid stIdx active acc acc2 line hs hacc)

theorem collectStopRows_valid (stTxt : String) (active : List (Option String))
    (m : List (Option String × List StopTime))
    (h : collectStopRows stTxt active = .ok m) :
    ∀ p ∈ m, ∀ r ∈ p.2, r.stop_id ∈ validStopCodes :=
  collectAux_valid (stIdxOf stTxt) active (dataLines stTxt) [] m h (by simp)

/-- Every corridor station code has a corridor position. -/
theorem validStopCodes_order : ∀ c ∈ validStopCodes, (codeToOrder c).isSome := by
  decide

-- --- Helper lemmas: classification ---

theorem getLastD_mem : ∀ (l : List α) (d : α), l.getLastD d ∈ d :: l
  | [], d => List.mem_singleton.mpr rfl
  | x :: xs, d => by
    rw [List.getLastD_cons]
    exact List.mem_cons_of_mem d (getLastD_mem xs x)

theorem length_mapSet : ∀ (acc : List (String × String)) (k v : String),
    acc.length ≤ (mapSet acc k v).length
  | [], _, _ => by simp [mapSet]
  | (k', v') :: rest, k, v => by
    simp only [mapSet]
    split_ifs
    · simp
    · simpa using length_mapSet rest k v

theorem buildStopsMap_length : ∀ (rows : List StopTime) (acc m : List (String × String)),
    buildStopsMap acc rows = .ok m → acc.length ≤ m.length
  | [], acc, m, h => by
    cases h
    exact le_refl _
  | r :: rest, acc, m, h => by
    rw [buildStopsMap] at h
    rcases hd : r.departure_time with _ | dt
    · rw [hd] at h
      cases h
    · rw [hd] at h
      exact le_trans (length_mapSet acc _ _) (buildStopsMap_length rest _ m h)

/-- Inversion of a successful classification: the group had at least two
stop events, the trip keeps the group key as id, its station-time map is
non-empty, and the direction flag is exactly the first-before-last test. -/
theorem classifyTrip_ok_some (k : Option String) (rows : List StopTime) (d : Bool)
    (t : ParsedTrip) (h : classifyTrip k rows = .ok (some (d, t))) :
    2 ≤ rows.length ∧ t.id = k ∧ 1 ≤ t.stops.length ∧
      d = decide (t.firstStopOrder < t.lastStopOrder) := by
  simp only [classifyTrip] at h
  by_cases hlen : (sortStopsJS rows).length < 2
  · rw [if_pos hlen] at h
    exact absurd h (by simp)
  · rw [if_neg hlen] at h
    have hlen2 : 2 ≤ rows.length := by
      have he : (sortStopsJS rows).length = rows.length := length_jsSortBy seqLE rows
      omega
    rcases hs : sortStopsJS rows with _ | ⟨f, rest⟩
    · rw [hs] at h
      exact absurd h (by simp)
    · rw [hs] at h
      dsimp only at h
      rcases h1 : codeToOrder f.stop_id with _ | fo
      · rw [h1] at h
        exact absurd h (by simp)
      · rw [h1] at h
        rcases h2 : codeToOrder (rest.getLastD f).stop_id with _ | lo
        · rw [h2] at h
          exact absurd h (by simp)
        · rw [h2] at h
          dsimp only at h
          rcases h3 : buildStopsMap [] (f :: rest) with e | sm
          · rw [h3] at h
            exact absurd h (by simp)
          · rw [h3] at h
            rcases h4 : f.departure_time with _ | dep
            · rw [h4] at h
              exact absurd h (by simp)
            · rw [h4] at h
              have hsm : 1 ≤ sm.length := by
                rw [buildStopsMap, h4] at h3
                simpa using buildStopsMap_length rest _ sm h3
              simp only [Except.ok.injEq, Option.some.injEq, Prod.mk.injEq] at h
              rcases h with ⟨hd, ht⟩
              subst ht
              exact ⟨hlen2, rfl, hsm, hd.symm⟩

/-- With at least two stop events whose codes all have corridor
positions, classification never takes a discarding branch. -/
theorem classifyTrip_not_discard (k : Option String) (rows : List StopTime)
    (hlen : 2 ≤ rows.length)
    (hvalid : ∀ r ∈ rows, (codeToOrder r.stop_id).isSome) :
    classifyTrip k rows ≠ .ok none := by
  simp only [classifyTrip]
  have he : (sortStopsJS rows).length = rows.length := length_jsSortBy seqLE rows
  rw [if_neg (by omega)]
  rcases hs : sortStopsJS rows with _ | ⟨f, rest⟩
  · rw [hs] at he
    simp at he
    omega
  · dsimp only
    have hf : f ∈ rows := by
      rw [← @mem_jsSortBy StopTime seqLE rows f]
      rw [show jsSortBy seqLE rows = sortStopsJS rows from rfl, hs]
      exact List.mem_cons_self _ _
    have hl : rest.getLastD f ∈ rows := by
      rw [← @mem_jsSortBy StopTime seqLE rows (rest.getLastD f)]
      rw [show jsSortBy seqLE rows = sortStopsJS rows from rfl, hs]
      exact getLastD_mem rest f
    rcases Option.isSome_iff_exists.mp (hvalid f hf) with ⟨fo, h1⟩
    rcases Option.isSome_iff_exists.mp (hvalid _ hl) with ⟨lo, h2⟩
    rw [h1, h2]
    dsimp only
    rcases h3 : buildStopsMap [] (f :: rest) with e | sm
    · simp
    · rcases h4 : f.departure_time with _ | dep <;> simp

/-- Where the entries of the two accumulating direction lists come from:
each was pushed by a group of `gs` whose classification returned it with
the matching direction flag. -/
theorem buildAux_mem : ∀ (gs : List (Option String × List StopTime))
    (acc res : List ParsedTrip × List ParsedTrip), buildAux acc gs = .ok res →
    (∀ t ∈ res.1, t ∈ acc.1 ∨
      ∃ k rows, (k, rows) ∈ gs ∧ classifyTrip k rows = .ok (some (true, t))) ∧
    (∀ t ∈ res.2, t ∈ acc.2 ∨
      ∃ k rows, (k, rows) ∈ gs ∧ classifyTrip k rows = .ok (some (false, t)))
  | [], acc, res, h => by
    cases h
    exact ⟨fun t ht => Or.inl ht, fun t ht => Or.inl ht⟩
  | (k, rows) :: gs, acc, res, h => by
    rw [buildAux] at h
    rcases hc : classifyTrip k rows with e | o
    · rw [hc] at h
      cases h
    · rw [hc] at h
      rcases o with _ | ⟨b, pt⟩
      · dsimp only at h
        have ih := buildAux_mem gs acc res h
        refine ⟨fun t ht => ?_, fun t ht => ?_⟩
        · rcases ih.1 t ht with h' | ⟨k', rows', hm, hcl⟩
          · exact Or.inl h'
          · exact Or.inr ⟨k', rows', List.mem_cons_of_mem _ hm, hcl⟩
        · rcases ih.2 t ht with h' | ⟨k', rows', hm, hcl⟩
          · exact Or.inl h'
          · exact Or.inr ⟨k', rows', List.mem_cons_of_mem _ hm, hcl⟩
      · cases b
        · dsimp only at h
          have ih := buildAux_mem gs (acc.1, acc.2 ++ [pt]) res h
          refine ⟨fun t ht => ?_, fun t ht => ?_⟩
          · rcases ih.1 t ht with h' | ⟨k', rows', hm, hcl⟩
            · exact Or.inl h'
            · exact Or.inr ⟨k', rows', List.mem_cons_of_mem _ hm, hcl⟩
          · rcases ih.2 t ht with h' | ⟨k', rows', hm, hcl⟩
            · rcases List.mem_append.mp h' with h' | h'
              · exact Or.inl h'
              · rw [List.mem_singleton.mp h']
                exact Or.inr ⟨k, rows, List.mem_cons_self _ _, hc⟩
            · exact Or.inr ⟨k', rows', List.mem_cons_of_mem _ hm, hcl⟩
        · dsimp only at h
          have ih := buildAux_mem gs (acc.1 ++ [pt], acc.2) res h
          refine ⟨fun t ht => ?_, fun t ht => ?_⟩
          · rcases ih.1 t ht with h' | ⟨k', rows', hm, hcl⟩
            · rcases List.mem_append.mp h' with h' | h'
              · exact Or.inl h'
              · rw [List.mem_singleton.mp h']
                exact Or.inr ⟨k, rows, List.mem_cons_self _ _, hc⟩
            · exact Or.inr ⟨k', rows', List.mem_cons_of_mem _ hm, hcl⟩
          · rcases ih.2 t ht with h' | ⟨k', rows', hm, hcl⟩
            · exact Or.inl h'
            · exact Or.inr ⟨k', rows', List.mem_cons_of_mem _ hm, hcl⟩

-- --- Helper lemma: inversion of a successful parseGTFS run ---

/-- A successful run decomposes into its phases: the two mandatory files
were present, stop-time collection and classification succeeded, the
result is the two time-sorted lists, and the progress log is exactly the
five phase messages in emission order. -/
theorem parseGTFS_ok_spec (arch : Archive) (dateStr dayName formattedDate : String)
    (r : GtfsResult) (h : (parseGTFS arch dateStr dayName formattedDate).1 = .ok r) :
    ∃ tripsTxt stTxt groups tb ti,
      arch.trips = some tripsTxt ∧ arch.stopTimes = some stTxt ∧
      collectStopRows stTxt (activeTripsOf tripsTxt
        (resolveActiveServices arch.calendar arch.calendarDates dateStr dayName)) =
          .ok groups ∧
      buildLists groups = .ok (tb, ti) ∧
      r = ⟨jsSortBy depLE tb, jsSortBy depLE ti, formattedDate⟩ ∧
      (parseGTFS arch dateStr dayName formattedDate).2 =
        ["Filtrando para fecha: " ++ formattedDate ++ " (" ++ dayName ++ ")...",
         "Analizando calendario y excepciones...",
         "Procesando viajes activos (" ++
           toString (resolveActiveServices arch.calendar arch.calendarDates
             dateStr dayName).length ++ " servicios)...",
         "Leyendo horarios...",
         "Organizando direcciones..."] := by
  simp only [parseGTFS] at h ⊢
  by_cases h0 : (resolveActiveServices arch.calendar arch.calendarDates dateStr dayName).length = 0
  · rw [if_pos h0] at h
    exact absurd h (by simp)
  · rw [if_neg h0] at h
    rw [if_neg h0]
    rcases ht : arch.trips with _ | tripsTxt
    · rw [ht] at h
      exact absurd h (by simp)
    · rw [ht] at h
      dsimp only at h ⊢
      rcases hst : arch.stopTimes with _ | stTxt
      · rw [hst] at h
        exact absurd h (by simp)
      · rw [hst] at h
        dsimp only at h ⊢
        rcases hcol : collectStopRows stTxt (activeTripsOf tripsTxt
            (resolveActiveServices arch.calendar arch.calendarDates dateStr dayName))
            with e | groups
        · rw [hcol] at h
          exact absurd h (by simp)
        · rw [hcol] at h
          dsimp only at h ⊢
          rcases hbl : buildLists groups with e | p
          · rw [hbl] at h
            exact absurd h (by simp)
          · rcases p with ⟨tb, ti⟩
            rw [hbl] at h
            dsimp only at h ⊢
            simp only [Except.ok.injEq] at h
            exact ⟨tripsTxt, stTxt, groups, tb, ti, rfl, rfl, hcol, hbl, h.symm, rfl⟩

-- --- Remaining helper lemmas for the claims ---

theorem excRowStep_blank (dateStr : String) (idx : CdIdx) (acc : List (Option String))
    (rawLine : String) (h : jsTrim rawLine = "") :
    excRowStep dateStr idx acc rawLine = acc := by
  simp only [excRowStep]
  rw [if_pos h]

theorem excRowStep_idem (dateStr : String) (idx : CdIdx) (A : List (Option String))
    (line : String) :
    excRowStep dateStr idx (excRowStep dateStr idx A line) line =
      excRowStep dateStr idx A line := by
  by_cases hb : jsTrim line = ""
  · rw [excRowStep_blank dateStr idx _ line hb, excRowStep_blank dateStr idx A line hb]
  · by_cases hdt : (getCol (jsSplitOn ',' (jsTrim line)) idx.date == some dateStr) = true
    · by_cases h1 : (getCol (jsSplitOn ',' (jsTrim line)) idx.etype == some "1") = true
      · have hstep : ∀ acc, excRowStep dateStr idx acc line =
            setAdd acc (getCol (jsSplitOn ',' (jsTrim line)) idx.service) := by
          intro acc
          simp only [excRowStep]
          rw [if_neg hb, if_pos hdt, if_pos h1]
        simp only [hstep]
        exact setAdd_idem _ _
      · by_cases h2 : (getCol (jsSplitOn ',' (jsTrim line)) idx.etype == some "2") = true
        · have hstep : ∀ acc, excRowStep dateStr idx acc line =
              setDel acc (getCol (jsSplitOn ',' (jsTrim line)) idx.service) := by
            intro acc
            simp only [excRowStep]
            rw [if_neg hb, if_pos hdt, if_neg h1, if_pos h2]
          simp only [hstep]
          exact setDel_idem _ _
        · have hstep : ∀ acc, excRowStep dateStr idx acc line = acc := by
            intro acc
            simp only [excRowStep]
            rw [if_neg hb, if_pos hdt, if_neg h1, if_neg h2]
          simp only [hstep]
    · have hstep : ∀ acc, excRowStep dateStr idx acc line = acc := by
        intro acc
        simp only [excRowStep]
        rw [if_neg hb, if_neg hdt]
      simp only [hstep]

theorem stStep_dep_none (stIdx : StIdx) (active : List (Option String))
    (hdep : stIdx.dep = none) (acc acc2 : List (Option String × List StopTime))
    (line : String) (h : stStep stIdx active acc line = .ok acc2)
    (hacc : ∀ p ∈ acc, ∀ r ∈ p.2, r.departure_time = none) :
    ∀ p ∈ acc2, ∀ r ∈ p.2, r.departure_time = none := by
  simp only [stStep] at h
  split_ifs at h with h1 h2
  · cases h
    exact hacc
  · rcases hc : getCol (jsSplitOn ',' line) stIdx.stop with _ | rawStop
    · rw [hc] at h
      cases h
    · rw [hc] at h
      dsimp only at h
      split_ifs at h with h3
      · cases h
        refine pushRow_forall _ acc _ _ hacc ?_
        rw [hdep]
        rfl
      · cases h
        exact hacc
  · cases h
    exact hacc

theorem collectAux_dep_none (stIdx : StIdx) (active : List (Option String))
    (hdep : stIdx.dep = none) :
    ∀ (lines : List String) (acc m : List (Option String × List StopTime)),
      collectAux stIdx active acc lines = .ok m →
      (∀ p ∈ acc, ∀ r ∈ p.2, r.departure_time = none) →
      ∀ p ∈ m, ∀ r ∈ p.2, r.departure_time = none
  | [], acc, m, h, hacc => by
    cases h
    exact hacc
  | line :: rest, acc, m, h, hacc => by
    rw [collectAux] at h
    rcases hs : stStep stIdx active acc line with e | acc2
    · rw [hs] at h
      cases h
    · rw [hs] at h
      exact collectAux_dep_none stIdx active hdep rest acc2 m h
        (stStep_dep_none stIdx active hdep acc acc2 line hs hacc)

theorem collectStopRows_dep_none (stTxt : String) (active : List (Option String))
    (m : List (Option String × List StopTime))
    (hcol : "departure_time" ∉ headerCols stTxt)
    (h : collectStopRows stTxt active = .ok m) :
    ∀ p ∈ m, ∀ r ∈ p.2, r.departure_time = none :=
  collectAux_dep_none (stIdxOf stTxt) active (jsIndexOf_eq_none_of_not_mem hcol)
    (dataLines stTxt) [] m h (by simp)

/-- A group of at least 2 stop events whose codes all have corridor
positions but whose departure times are all `undefined` makes the
classification phase throw: `substring` is called on `undefined` while
building the station-time map. -/
theorem classifyTrip_dep_none_err (k : Option String) (rows : List StopTime)
    (hlen : 2 ≤ rows.length)
    (hvalid : ∀ r ∈ rows, (codeToOrder r.stop_id).isSome)
    (hdep : ∀ r ∈ rows, r.departure_time = none) :
    classifyTrip k rows = .error .typeError := by
  simp only [classifyTrip]
  have he : (sortStopsJS rows).length = rows.length := length_jsSortBy seqLE rows
  rw [if_neg (by omega)]
  rcases hs : sortStopsJS rows with _ | ⟨f, rest⟩
  · rw [hs] at he
    simp at he
    omega
  · dsimp only
    have hf : f ∈ rows := by
      rw [← @mem_jsSortBy StopTime seqLE rows f]
      rw [show jsSortBy seqLE rows = sortStopsJS rows from rfl, hs]
      exact List.mem_cons_self _ _
    have hl : rest.getLastD f ∈ rows := by
      rw [← @mem_jsSortBy StopTime seqLE rows (rest.getLastD f)]
      rw [show jsSortBy seqLE rows = sortStopsJS rows from rfl, hs]
      exact getLastD_mem rest f
    rcases Option.isSome_iff_exists.mp (hvalid f hf) with ⟨fo, h1⟩
    rcases Option.isSome_iff_exists.mp (hvalid _ hl) with ⟨lo, h2⟩
    rw [h1, h2]
    dsimp only
    have hbm : buildStopsMap [] (f :: rest) = .error .typeError := by
      rw [buildStopsMap, hdep f hf]
    rw [hbm]

-- --- The claims ---

/-- C1: for every `calendar.txt` whose header contains `service_id`, the
target weekday name, `start_date` and `end_date`, the base-calendar pass
puts a service identifier into the active set iff some data row carries
that identifier, has its weekday column equal to `"1"`, and satisfies
`start_date <= targetDate <= end_date` under lexicographic string
comparison of the YYYYMMDD strings. -/
theorem claim1_base_calendar (calTxt dateStr dayName : String) (s : String)
    (hs : "service_id" ∈ headerCols calTxt) (hd : dayName ∈ headerCols calTxt)
    (hst : "start_date" ∈ headerCols calTxt) (he : "end_date" ∈ headerCols calTxt) :
    some s ∈ baseCalendar (some calTxt) dateStr dayName ↔
      ∃ l ∈ dataLines calTxt,
        calRowQualifies dateStr (calIdxOf calTxt dayName) l (some s) := by
  have h1 : (calIdxOf calTxt dayName).service.isSome = true := jsIndexOf_isSome_of_mem hs
  have h2 : (calIdxOf calTxt dayName).day.isSome = true := jsIndexOf_isSome_of_mem hd
  have h3 : (calIdxOf calTxt dayName).start.isSome = true := jsIndexOf_isSome_of_mem hst
  have h4 : (calIdxOf calTxt dayName).endCol.isSome = true := jsIndexOf_isSome_of_mem he
  simp only [baseCalendar]
  rw [if_pos (by rw [h1, h2, h3, h4]; rfl)]
  rw [mem_foldl_calRowStep]
  simp

/-- Witness for C1 at a concrete calendar: `S1` is granted by its Monday
rule for 2024-06-03. -/
theorem claim1_base_calendar_witness :
    some "S1" ∈ baseCalendar (some calFixture) "20240603" "monday" :=
  (claim1_base_calendar calFixture "20240603" "monday" "S1"
      (by decide) (by decide) (by decide) (by decide)).mpr
    ⟨"S1,1,20240101,20241231", by decide, ⟨by decide, by decide⟩⟩

/-- C2: exceptions are applied strictly after the entire base-calendar
pass (structural conjunct), and a `"1"`/`"2"` exception row for the
target date forces its service in or out of the set regardless of the
set's prior contents; both operations are idempotent. -/
theorem claim2_exceptions_override (dateStr : String) (idx : CdIdx)
    (A : List (Option String)) (addLine removeLine : String) (s u : String)
    (hadd : excLineAdds dateStr idx addLine (some s))
    (hrem : excLineRemoves dateStr idx removeLine (some u)) :
    some s ∈ excRowStep dateStr idx A addLine ∧
    some u ∉ excRowStep dateStr idx A removeLine ∧
    (∀ line, excRowStep dateStr idx (excRowStep dateStr idx A line) line =
      excRowStep dateStr idx A line) ∧
    (∀ cal cd d day, resolveActiveServices cal cd d day =
      applyCalendarDates cd d (baseCalendar cal d day)) := by
  rcases hadd with ⟨hb, hd, ht, hsv⟩
  rcases hrem with ⟨hb', hd', ht', hsv'⟩
  refine ⟨?_, ?_, fun line => excRowStep_idem dateStr idx A line, fun _ _ _ _ => rfl⟩
  · simp only [excRowStep]
    rw [if_neg hb, if_pos hd, if_pos (by simp [ht]), hsv]
    exact self_mem_setAdd A (some s)
  · simp only [excRowStep]
    rw [if_neg hb', if_pos hd', if_neg (by simp [ht']), if_pos (by simp [ht']), hsv']
    exact not_mem_setDel A (some u)

/-- Witness for C2: a concrete add forces `S1` in although absent before,
and a concrete remove forces `S0` out although present before. -/
theorem claim2_witness :
    some "S1" ∈ excRowStep "20240603" ⟨some 0, some 1, some 2⟩ [some "S0"] "S1,20240603,1" ∧
    some "S0" ∉ excRowStep "20240603" ⟨some 0, some 1, some 2⟩ [some "S0"] "S0,20240603,2" :=
  ⟨(claim2_exceptions_override "20240603" ⟨some 0, some 1, some 2⟩ [some "S0"]
      "S1,20240603,1" "S0,20240603,2" "S1" "S0"
      ⟨by decide, by decide, by decide, by decide⟩
      ⟨by decide, by decide, by decide, by decide⟩).1,
   (claim2_exceptions_override "20240603" ⟨some 0, some 1, some 2⟩ [some "S0"]
      "S1,20240603,1" "S0,20240603,2" "S1" "S0"
      ⟨by decide, by decide, by decide, by decide⟩
      ⟨by decide, by decide, by decide, by decide⟩).2.1⟩

/-- C10: with several exception rows for the same service and the target
date, the last `"1"`/`"2"` row in file order decides membership; rows
with other exception types or other dates leave the set unchanged. -/
theorem claim10_last_exception_wins (cdTxt dateStr : String)
    (A : List (Option String)) (s : String) :
    (some s ∈ applyCalendarDates (some cdTxt) dateStr A ↔
      (match ((dataLines cdTxt).filter
          (excRelevant dateStr (cdIdxOf cdTxt) (some s))).getLast? with
       | some l => getCol (jsSplitOn ',' (jsTrim l)) (cdIdxOf cdTxt).etype = some "1"
       | none => some s ∈ A)) := by
  simp only [applyCalendarDates]
  by_cases hall : ((cdIdxOf cdTxt).service.isSome && (cdIdxOf cdTxt).date.isSome &&
      (cdIdxOf cdTxt).etype.isSome) = true
  · rw [if_pos hall]
    exact mem_foldl_excRowStep dateStr (cdIdxOf cdTxt) (some s) (dataLines cdTxt) A
  · rw [if_neg hall]
    have h3 : (cdIdxOf cdTxt).service = none ∨ (cdIdxOf cdTxt).date = none ∨
        (cdIdxOf cdTxt).etype = none := by
      by_contra hcon
      push_neg at hcon
      obtain ⟨h1', h2', h3'⟩ := hcon
      exact hall (by
        rw [Option.ne_none_iff_isSome] at h1' h2' h3'
        rw [h1', h2', h3']
        rfl)
    have hfil : (dataLines cdTxt).filter
        (excRelevant dateStr (cdIdxOf cdTxt) (some s)) = [] := by
      rw [List.filter_eq_nil_iff]
      intro l _
      rcases h3 with h | h | h <;> simp [excRelevant, h, getCol]
    rw [hfil]
    simp

/-- C3 counterexample: a trip whose two in-corridor stop events both hit
station 11600 is placed in the inbound list with only ONE entry in its
station-to-time mapping, refuting "at least 2 entries in its
station-to-time mapping". -/
theorem claim3_counterexample :
    (parseGTFS archDupStation "20240603" "monday" "03/06/2024").1 =
      Except.ok ⟨[], [⟨some "T1", [("11600", "08:30")], 1, 1, "08:00:00"⟩], "03/06/2024"⟩ ∧
    (⟨some "T1", [("11600", "08:30")], 1, 1, "08:00:00"⟩ : ParsedTrip).stops.length = 1 :=
  ⟨rfl, rfl⟩

/-- C3 (amended): every trip in either output list stems from a group of
at least 2 in-corridor stop events and has a non-empty (possibly
singleton) station-to-time mapping; it is outbound exactly when the first
in-corridor position is strictly below the last, inbound otherwise
(including the equal case), and never in both lists; groups with fewer
than 2 events produce no output trip. -/
theorem claim3_amended (arch : Archive) (dateStr dayName formattedDate : String)
    (r : GtfsResult)
    (h : (parseGTFS arch dateStr dayName formattedDate).1 = .ok r) :
    (∀ t ∈ r.toBrinkola, t.firstStopOrder < t.lastStopOrder ∧ 1 ≤ t.stops.length) ∧
    (∀ t ∈ r.toIrun, t.lastStopOrder ≤ t.firstStopOrder ∧ 1 ≤ t.stops.length) ∧
    (∀ t, t ∈ r.toBrinkola → t ∈ r.toIrun → False) ∧
    (∀ t ∈ r.toBrinkola ++ r.toIrun, ∃ tripsTxt stTxt groups k rows,
      arch.trips = some tripsTxt ∧ arch.stopTimes = some stTxt ∧
      collectStopRows stTxt (activeTripsOf tripsTxt
        (resolveActiveServices arch.calendar arch.calendarDates dateStr dayName)) =
          .ok groups ∧
      (k, rows) ∈ groups ∧ t.id = k ∧ 2 ≤ rows.length) := by
  obtain ⟨tripsTxt, stTxt, groups, tb, ti, htr, hst, hcol, hbl, hr, _⟩ :=
    parseGTFS_ok_spec arch dateStr dayName formattedDate r h
  have horig := buildAux_mem groups ([], []) (tb, ti) hbl
  have hB : ∀ t ∈ r.toBrinkola,
      ∃ k rows, (k, rows) ∈ groups ∧ classifyTrip k rows = .ok (some (true, t)) := by
    intro t ht
    rw [hr] at ht
    rcases horig.1 t (mem_jsSortBy.mp ht) with h' | h'
    · exact absurd h' (List.not_mem_nil t)
    · exact h'
  have hI : ∀ t ∈ r.toIrun,
      ∃ k rows, (k, rows) ∈ groups ∧ classifyTrip k rows = .ok (some (false, t)) := by
    intro t ht
    rw [hr] at ht
    rcases horig.2 t (mem_jsSortBy.mp ht) with h' | h'
    · exact absurd h' (List.not_mem_nil t)
    · exact h'
  have hBdir : ∀ t ∈ r.toBrinkola, t.firstStopOrder < t.lastStopOrder ∧ 1 ≤ t.stops.length := by
    intro t ht
    obtain ⟨k, rows, _, hcl⟩ := hB t ht
    obtain ⟨_, _, hstops, hd⟩ := classifyTrip_ok_some k rows true t hcl
    exact ⟨of_decide_eq_true hd.symm, hstops⟩
  have hIdir : ∀ t ∈ r.toIrun, t.lastStopOrder ≤ t.firstStopOrder ∧ 1 ≤ t.stops.length := by
    intro t ht
    obtain ⟨k, rows, _, hcl⟩ := hI t ht
    obtain ⟨_, _, hstops, hd⟩ := classifyTrip_ok_some k rows false t hcl
    exact ⟨Nat.le_of_not_lt (of_decide_eq_false hd.symm), hstops⟩
  refine ⟨hBdir, hIdir, ?_, ?_⟩
  · intro t htB htI
    exact absurd (hBdir t htB).1 (Nat.not_lt.mpr (hIdir t htI).1)
  · intro t ht
    rcases List.mem_append.mp ht with ht | ht
    · obtain ⟨k, rows, hm, hcl⟩ := hB t ht
      obtain ⟨hlen, hid, _, _⟩ := classifyTrip_ok_some k rows true t hcl
      exact ⟨tripsTxt, stTxt, groups, k, rows, htr, hst, hcol, hm, hid, hlen⟩
    · obtain ⟨k, rows, hm, hcl⟩ := hI t ht
      obtain ⟨hlen, hid, _, _⟩ := classifyTrip_ok_some k rows false t hcl
      exact ⟨tripsTxt, stTxt, groups, k, rows, htr, hst, hcol, hm, hid, hlen⟩

/-- Witness for C3 (amended) at the concrete well-formed archive: its one
outbound trip goes toward increasing positions and has stops recorded. -/
theorem claim3_amended_witness :
    tripFixture.firstStopOrder < tripFixture.lastStopOrder ∧ 1 ≤ tripFixture.stops.length :=
  (claim3_amended archFixture "20240603" "monday" "03/06/2024" resFixture rfl).1
    tripFixture (List.mem_singleton.mpr rfl)

/-- C4: both returned lists are sorted non-decreasingly by the raw
(full HH:MM:SS) departure time at the first in-corridor stop, under
lexicographic string comparison. -/
theorem claim4_sorted (arch : Archive) (dateStr dayName formattedDate : String)
    (r : GtfsResult)
    (h : (parseGTFS arch dateStr dayName formattedDate).1 = .ok r) :
    r.toBrinkola.Pairwise
      (fun a b => jsLE a.departureFromOrigin b.departureFromOrigin = true) ∧
    r.toIrun.Pairwise
      (fun a b => jsLE a.departureFromOrigin b.departureFromOrigin = true) := by
  obtain ⟨_, _, _, tb, ti, _, _, _, _, hr, _⟩ :=
    parseGTFS_ok_spec arch dateStr dayName formattedDate r h
  have htrans : ∀ a b c : ParsedTrip, depLE a b = true → depLE b c = true →
      depLE a c = true := fun _ _ _ hab hbc => jsLE_trans hab hbc
  have htotal : ∀ a b : ParsedTrip, depLE a b = true ∨ depLE b a = true :=
    fun a b => jsLE_total a.departureFromOrigin b.departureFromOrigin
  rw [hr]
  exact ⟨jsSortBy_pairwise htrans htotal tb, jsSortBy_pairwise htrans htotal ti⟩

/-- Witness for C4 at the concrete archive. -/
theorem claim4_witness :
    resFixture.toBrinkola.Pairwise
      (fun a b => jsLE a.departureFromOrigin b.departureFromOrigin = true) ∧
    resFixture.toIrun.Pairwise
      (fun a b => jsLE a.departureFromOrigin b.departureFromOrigin = true) :=
  claim4_sorted archFixture "20240603" "monday" "03/06/2024" resFixture rfl

/-- C5 counterexample: with every archive member absent the active set is
empty, and the run fails with `noActiveService`, not with
`missingFile "trips.txt"`, although `trips.txt` is absent — refuting
"independent of the outcome of calendar resolution". -/
theorem claim5_counterexample :
    archEmpty.trips = none ∧
    (parseGTFS archEmpty "20240603" "monday" "03/06/2024").1 =
      Except.error (GtfsError.noActiveService "03/06/2024") :=
  ⟨rfl, rfl⟩

/-- C5 (amended): if `trips.txt` is absent AND the resolved active set is
non-empty, the run fails with `MissingFeedFileError` naming `trips.txt`;
an empty active set takes precedence with `NoActiveServiceError`. -/
theorem claim5_amended (arch : Archive) (dateStr dayName formattedDate : String)
    (htrips : arch.trips = none)
    (hne : resolveActiveServices arch.calendar arch.calendarDates dateStr dayName ≠ []) :
    (parseGTFS arch dateStr dayName formattedDate).1 =
      Except.error (GtfsError.missingFile "trips.txt") := by
  simp only [parseGTFS]
  rw [if_neg (fun h0 => hne (List.length_eq_zero.mp h0))]
  rw [htrips]

/-- Witness for C5 (amended): calendar present, `trips.txt` absent. -/
theorem claim5_amended_witness :
    (parseGTFS archNoTrips "20240603" "monday" "03/06/2024").1 =
      Except.error (GtfsError.missingFile "trips.txt") :=
  claim5_amended archNoTrips "20240603" "monday" "03/06/2024" rfl (by decide)

/-- C6 counterexample: `trips.txt` is present but its header lacks
`service_id`; the run nevertheless completes successfully (with empty
lists), refuting the claimed fatal column-not-found failure. -/
theorem claim6_counterexample :
    "service_id" ∉ headerCols tripsNoService ∧
    (parseGTFS archNoServiceCol "20240603" "monday" "03/06/2024").1 =
      Except.ok ⟨[], [], "03/06/2024"⟩ :=
  ⟨by decide, rfl⟩

/-- C6 (amended): a missing required column in `trips.txt` or
`stop_times.txt` never produces a column-not-found error. In particular:
a `trips.txt` without `service_id` is silently tolerated — every row's
service lookup yields `undefined`, which equals no active service
identifier, so no trip is marked active and no error is raised; a
`stop_times.txt` without `stop_id` aborts with a propagated `TypeError`
(`.trim()` on `undefined`) as soon as a non-blank row of an active trip
is reached; and a `stop_times.txt` without `departure_time` stores
`undefined` departure times, so the classification of any surviving
group of at least 2 stop events aborts with a propagated `TypeError`
(`substring` on `undefined`). -/
theorem claim6_amended (tripsTxt stTxt stTxt2 : String)
    (active activeT activeT2 : List (Option String))
    (m2 : List (Option String × List StopTime)) (k : Option String)
    (rows : List StopTime)
    (ha1 : "service_id" ∉ headerCols tripsTxt) (ha2 : none ∉ active)
    (hb1 : "stop_id" ∉ headerCols stTxt)
    (hb2 : ∃ l ∈ dataLines stTxt, l ≠ "" ∧
      getCol (jsSplitOn ',' l) (stIdxOf stTxt).trip ∈ activeT)
    (hc1 : "departure_time" ∉ headerCols stTxt2)
    (hc2 : collectStopRows stTxt2 activeT2 = .ok m2)
    (hc3 : (k, rows) ∈ m2) (hc4 : 2 ≤ rows.length) :
    activeTripsOf tripsTxt active = [] ∧
    collectStopRows stTxt activeT = .error .typeError ∧
    classifyTrip k rows = .error .typeError := by
  refine ⟨activeTripsOf_no_service_col tripsTxt active ha1 ha2, ?_, ?_⟩
  · exact collectAux_stop_none (stIdxOf stTxt) activeT
      (jsIndexOf_eq_none_of_not_mem hb1) (dataLines stTxt) [] hb2
  · exact classifyTrip_dep_none_err k rows hc4
      (fun r hr => validStopCodes_order _
        (collectStopRows_valid stTxt2 activeT2 m2 hc2 (k, rows) hc3 r hr))
      (fun r hr => collectStopRows_dep_none stTxt2 activeT2 m2 hc1 hc2 (k, rows) hc3 r hr)

/-- Witness for C6 (amended) at concrete malformed headers: one feed per
missing-column case. -/
theorem claim6_amended_witness :
    activeTripsOf tripsNoService [some "S1"] = [] ∧
    collectStopRows stNoStopCol [some "T1"] = .error .typeError ∧
    classifyTrip (some "T1") stopRowsNoDep = .error .typeError :=
  claim6_amended tripsNoService stNoStopCol stNoDepCol
    [some "S1"] [some "T1"] [some "T1"]
    [(some "T1", stopRowsNoDep)] (some "T1") stopRowsNoDep
    (by decide) (by decide) (by decide)
    ⟨"T1,08:00:00,1", by decide, by decide, by decide⟩
    (by decide) rfl (List.mem_singleton.mpr rfl) (by decide)

/-- C7 counterexample: the second stop row's sequence `abc` does not
parse as an integer (`parseInt` yields `NaN`), yet the run completes
successfully and even classifies the trip — refuting the claimed fatal
`ParseError`. -/
theorem claim7_counterexample :
    parseIntJS (some "abc") = none ∧
    (parseGTFS archBadSeq "20240603" "monday" "03/06/2024").1 =
      Except.ok ⟨[⟨some "T1", [("11600", "08:00"), ("11305", "08:30")], 1, 27, "08:00:00"⟩],
        [], "03/06/2024"⟩ :=
  ⟨rfl, rfl⟩

/-- C7 (amended): an unparseable `stop_sequence` never aborts the
request: `parseInt` yields `NaN` (kept in the row, compared as a tie by
the sort); stop-time collection can only fail with the undefined-field
`TypeError`, never with a numeric parse failure. -/
theorem claim7_amended (stTxt : String) (activeTrips : List (Option String)) :
    (∃ m, collectStopRows stTxt activeTrips = .ok m) ∨
      collectStopRows stTxt activeTrips = .error .typeError :=
  collectAux_ok_or_typeError (stIdxOf stTxt) activeTrips (dataLines stTxt) []

/-- C8: every stop row accumulated by the corridor filter carries a stop
code with a corridor position (the filter set and the position lookup are
built from the same 27-station table), so the defensive discard in
classification is unreachable for any group that passes the two-event
check. -/
theorem claim8_defensive_unreachable (stTxt : String)
    (activeTrips : List (Option String)) (m : List (Option String × List StopTime))
    (k : Option String) (rows : List StopTime)
    (hok : collectStopRows stTxt activeTrips = .ok m) (hmem : (k, rows) ∈ m)
    (hlen : 2 ≤ rows.length) :
    (∀ r ∈ rows, (codeToOrder r.stop_id).isSome) ∧ classifyTrip k rows ≠ .ok none := by
  have hvalid : ∀ r ∈ rows, (codeToOrder r.stop_id).isSome := fun r hr =>
    validStopCodes_order _
      (collectStopRows_valid stTxt activeTrips m hok (k, rows) hmem r hr)
  exact ⟨hvalid, classifyTrip_not_discard k rows hlen hvalid⟩

/-- Witness for C8 at the concrete feed: the two-stop group of `T1` is
never discarded by the defensive branch. -/
theorem claim8_witness : classifyTrip (some "T1") stopRowsFixture ≠ .ok none :=
  (claim8_defensive_unreachable stFixture [some "T1"] [(some "T1", stopRowsFixture)]
    (some "T1") stopRowsFixture rfl (List.mem_singleton.mpr rfl) (by decide)).2

/-- C9 counterexample: a successful run emits FIVE progress strings (an
initial date announcement precedes the four phase checkpoints), refuting
"exactly four". -/
theorem claim9_counterexample :
    (parseGTFS archFixture "20240603" "monday" "03/06/2024").1 = Except.ok resFixture ∧
    (parseGTFS archFixture "20240603" "monday" "03/06/2024").2.length = 5 :=
  ⟨rfl, rfl⟩

/-- C9 (amended): a successful invocation emits exactly five progress
strings in a fixed order: the initial date announcement, then calendar
resolution, active-trip filtering, stop-time reading, and direction
classification. -/
theorem claim9_amended (arch : Archive) (dateStr dayName formattedDate : String)
    (r : GtfsResult)
    (h : (parseGTFS arch dateStr dayName formattedDate).1 = .ok r) :
    (parseGTFS arch dateStr dayName formattedDate).2 =
      ["Filtrando para fecha: " ++ formattedDate ++ " (" ++ dayName ++ ")...",
       "Analizando calendario y excepciones...",
       "Procesando viajes activos (" ++
         toString (resolveActiveServices arch.calendar arch.calendarDates
           dateStr dayName).length ++ " servicios)...",
       "Leyendo horarios...",
       "Organizando direcciones..."] := by
  obtain ⟨_, _, _, _, _, _, _, _, _, _, hlog⟩ :=
    parseGTFS_ok_spec arch dateStr dayName formattedDate r h
  exact hlog

/-- Witness for C9 (amended) at the concrete archive. -/
theorem claim9_amended_witness :
    (parseGTFS archFixture "20240603" "monday" "03/06/2024").2 =
      ["Filtrando para fecha: 03/06/2024 (monday)...",
       "Analizando calendario y excepciones...",
       "Procesando viajes activos (1 servicios)...",
       "Leyendo horarios...",
       "Organizando direcciones..."] :=
  claim9_amended archFixture "20240603" "monday" "03/06/2024" resFixture rfl
